import Mathlib

/-!
Shallow embedding of the `websocket` package (RFC 6455 WebSocket protocol).

The repository's single source file `websocket.go` is an API skeleton: it
contains the close-code constants and type declarations with documentation
comments, but the bodies of the frame codec, message reader/writer and the
close state machine are not present under `src/`.  Consequently the
close-code constants and the documented option semantics are embedded
directly from the source, while the protocol engine (frame codec, message
assembly, limits, close handshake, reader concurrency) is modelled from the
specification, as indicated on each definition.
-/

namespace WS

/-- WebSocket frame opcodes, from the spec data model:
`opcode: enum{Continuation, Text, Binary, Close, Ping, Pong}`. -/
inductive Opcode
  | Continuation
  | Text
  | Binary
  | Close
  | Ping
  | Pong
  deriving DecidableEq, Repr

/-- Wire value of an opcode (RFC 6455 §5.2). -/
def Opcode.toNat : Opcode → Nat
  | .Continuation => 0
  | .Text => 1
  | .Binary => 2
  | .Close => 8
  | .Ping => 9
  | .Pong => 10

/-- Parse a 4-bit opcode field; reserved values are rejected. -/
def Opcode.ofNat? (n : Nat) : Option Opcode :=
  if n = 0 then some .Continuation
  else if n = 1 then some .Text
  else if n = 2 then some .Binary
  else if n = 8 then some .Close
  else if n = 9 then some .Ping
  else if n = 10 then some .Pong
  else none

/-- Control opcodes (Close/Ping/Pong), per the spec glossary. -/
def Opcode.isControl : Opcode → Bool
  | .Close => true
  | .Ping => true
  | .Pong => true
  | _ => false

/-- A WebSocket frame, from the spec data model: `fin`, three `rsv` flags,
`opcode`, `masked` (represented by the presence of `maskingKey`),
`payload_length` (the length of `payload`), `masking_key` (four bytes,
present iff masked) and the payload byte sequence.  Bytes are `Nat`s
below 256. -/
structure Frame where
  fin : Bool
  rsv1 : Bool
  rsv2 : Bool
  rsv3 : Bool
  opcode : Opcode
  maskingKey : Option (List Nat)
  payload : List Nat
  deriving DecidableEq, Repr

/-- The `masked` header bit: present iff a masking key is present. -/
def Frame.masked (f : Frame) : Bool := f.maskingKey.isSome

/-- Validity of a frame, per the spec data-model invariant: the payload
length fits the 64-bit length field, control frames are never fragmented
and carry at most 125 payload bytes, and a masking key (when present) is
exactly four bytes. -/
def Frame.valid (f : Frame) : Bool :=
  decide (f.payload.length < 2 ^ 64) &&
  (!f.opcode.isControl || (f.fin && decide (f.payload.length ≤ 125))) &&
  (match f.maskingKey with
   | some k => decide (k.length = 4)
   | none => true)

/-- Connection role, from the spec data model: `role: {Client, Server}`. -/
inductive Role
  | Client
  | Server
  deriving DecidableEq, Repr

/-- Error taxonomy of the spec (§7): protocol errors, limit breaches,
timeouts, peer close (with code and reason), closed-connection and
concurrency-misuse errors; `incomplete` stands for a truncated input. -/
inductive WsError
  | protocolError
  | limitExceeded
  | timeout
  | peerClose (code : Nat) (reason : List Nat)
  | connClosed
  | concurrencyMisuse
  | incomplete
  deriving DecidableEq, Repr

/-! ### Close codes (embedded from `src/websocket.go`, lines 29-44) -/

def CloseNormalClosure : Nat := 1000
def CloseGoingAway : Nat := 1001
def CloseProtocolError : Nat := 1002
def CloseUnsupportedData : Nat := 1003
def CloseNoStatusReceived : Nat := 1005
def CloseAbnormalClosure : Nat := 1006
def CloseInvalidFramePayloadData : Nat := 1007
def ClosePolicyViolation : Nat := 1008
def CloseMessageTooBig : Nat := 1009
def CloseMandatoryExtension : Nat := 1010
def CloseInternalServerErr : Nat := 1011
def CloseServiceRestart : Nat := 1012
def CloseTryAgainLater : Nat := 1013
def CloseTLSHandshake : Nat := 1015

/-- All close-code constants defined by the package, in source order. -/
def closeCodes : List Nat :=
  [CloseNormalClosure, CloseGoingAway, CloseProtocolError,
   CloseUnsupportedData, CloseNoStatusReceived, CloseAbnormalClosure,
   CloseInvalidFramePayloadData, ClosePolicyViolation, CloseMessageTooBig,
   CloseMandatoryExtension, CloseInternalServerErr, CloseServiceRestart,
   CloseTryAgainLater, CloseTLSHandshake]

/-! ### Byte-level helpers for the frame codec -/

/-- Big-endian encoding of `n` on `k` bytes. -/
def toBytesBE (k : Nat) (n : Nat) : List Nat :=
  match k with
  | 0 => []
  | k + 1 => toBytesBE k (n / 256) ++ [n % 256]

/-- Big-endian decoding of a byte list. -/
def fromBytesBE (bs : List Nat) : Nat :=
  bs.foldl (fun acc b => acc * 256 + b) 0

/-- Extract bit `k` of byte `b`. -/
def bitAt (b : Nat) (k : Nat) : Bool := b / 2 ^ k % 2 == 1

/-- Modelled from the spec (§4.1, the masking contract of the frame codec,
missing from `src/`): XOR each payload byte with the masking-key byte at
index `i mod 4`, `i` being the byte's position in the payload. -/
def maskBytes (key : List Nat) (i : Nat) : List Nat → List Nat
  | [] => []
  | b :: bs => (b ^^^ key.getD (i % 4) 0) :: maskBytes key (i + 1) bs

@[simp] theorem maskBytes_length (key : List Nat) (i : Nat) (bs : List Nat) :
    (maskBytes key i bs).length = bs.length := by
  induction bs generalizing i with
  | nil => rfl
  | cons b bs ih => simp [maskBytes, ih]

theorem maskBytes_maskBytes (key : List Nat) (i : Nat) (bs : List Nat) :
    maskBytes key i (maskBytes key i bs) = bs := by
  induction bs generalizing i with
  | nil => rfl
  | cons b bs ih =>
    simp [maskBytes, ih, Nat.xor_assoc, Nat.xor_self, Nat.xor_zero]

@[simp] theorem toBytesBE_length (k n : Nat) : (toBytesBE k n).length = k := by
  induction k generalizing n with
  | zero => rfl
  | succ k ih => simp [toBytesBE, ih]

theorem fromBytesBE_aux (k n acc : Nat) (h : n < 256 ^ k) :
    (toBytesBE k n).foldl (fun a b => a * 256 + b) acc = acc * 256 ^ k + n := by
  induction k generalizing n acc with
  | zero =>
    interval_cases n
    simp [toBytesBE]
  | succ k ih =>
    have hdiv : n / 256 < 256 ^ k := by
      apply Nat.div_lt_of_lt_mul
      rw [pow_succ] at h
      omega
    have := ih (n / 256) acc hdiv
    simp only [toBytesBE, List.foldl_append, this, List.foldl_cons, List.foldl_nil]
    have := Nat.div_add_mod n 256
    rw [pow_succ]
    ring_nf
    omega

theorem fromBytesBE_toBytesBE (k n : Nat) (h : n < 256 ^ k) :
    fromBytesBE (toBytesBE k n) = n := by
  have := fromBytesBE_aux k n 0 h
  simpa [fromBytesBE] using this

/-! ### Frame codec

Modelled from the spec (§4.1 Frame Codec and §6 wire format, missing from
`src/`): the RFC 6455 §5 frame layout — a 2-byte base header, an optional
2- or 8-byte big-endian extended length, an optional 4-byte masking key and
the payload, with the client-to-server masking direction checked by the
server and non-minimal length encodings rejected as protocol errors. -/

/-- First header byte: fin, the three rsv flags and the 4-bit opcode. -/
def headerByte0 (fin rsv1 rsv2 rsv3 : Bool) (op : Opcode) : Nat :=
  cond fin 128 0 + cond rsv1 64 0 + cond rsv2 32 0 + cond rsv3 16 0 + op.toNat

/-- The 7-bit length field and extended-length bytes for payload length
`n`: `n` itself when `n ≤ 125`, `126` plus a 16-bit big-endian extension
when `n < 65536`, and `127` plus a 64-bit big-endian extension otherwise. -/
def lenBytes (n : Nat) : Nat × List Nat :=
  if n ≤ 125 then (n, [])
  else if n < 65536 then (126, toBytesBE 2 n)
  else (127, toBytesBE 8 n)

/-- Modelled from the spec (§4.1 `encode_frame`, missing from `src/`):
serialize a frame, masking the payload when a masking key is present. -/
def encodeFrame (f : Frame) : List Nat :=
  let lb := lenBytes f.payload.length
  let b1 := cond f.masked 128 0 + lb.1
  match f.maskingKey with
  | none => headerByte0 f.fin f.rsv1 f.rsv2 f.rsv3 f.opcode :: b1 :: (lb.2 ++ f.payload)
  | some key =>
      headerByte0 f.fin f.rsv1 f.rsv2 f.rsv3 f.opcode :: b1 ::
        (lb.2 ++ key ++ maskBytes key 0 f.payload)

/-- Read exactly `k` bytes from the head of the stream. -/
def readN (k : Nat) (bs : List Nat) : Option (List Nat × List Nat) :=
  if k ≤ bs.length then some (bs.take k, bs.drop k) else none

/-- Modelled from the spec (§4.1 / §3 invariant, missing from `src/`):
decode the payload length from the 7-bit field and the stream, rejecting
the minimal-encoding violations (a 16-bit extension encoding a value ≤ 125,
a 64-bit extension encoding a value < 65536) as protocol errors. -/
def decodeLen (l7 : Nat) (rest : List Nat) : Except WsError (Nat × List Nat) :=
  if l7 ≤ 125 then .ok (l7, rest)
  else if l7 = 126 then
    match readN 2 rest with
    | none => .error .incomplete
    | some (ext, rest2) =>
      let n := fromBytesBE ext
      if n ≤ 125 then .error .protocolError else .ok (n, rest2)
  else
    match readN 8 rest with
    | none => .error .incomplete
    | some (ext, rest2) =>
      let n := fromBytesBE ext
      if n < 65536 then .error .protocolError else .ok (n, rest2)

/-- Modelled from the spec (§4.1 `decode_header`/`decode_payload`, missing
from `src/`): parse one frame from the stream.  A server rejects any frame
that is not masked (bad masking direction), reserved opcodes, non-minimal
length encodings and fragmented or oversized control frames are protocol
errors, and the payload is unmasked with the transmitted key.  Returns the
decoded frame and the unconsumed remainder of the stream. -/
def decodeFrame (role : Role) (input : List Nat) : Except WsError (Frame × List Nat) :=
  match input with
  | b0 :: b1 :: rest =>
    let fin := bitAt b0 7
    let rsv1 := bitAt b0 6
    let rsv2 := bitAt b0 5
    let rsv3 := bitAt b0 4
    match Opcode.ofNat? (b0 % 16) with
    | none => .error .protocolError
    | some op =>
      let masked := bitAt b1 7
      if role = .Server ∧ masked = false then .error .protocolError
      else
        match decodeLen (b1 % 128) rest with
        | .error e => .error e
        | .ok (n, rest2) =>
          if op.isControl && (!fin || decide (125 < n)) then .error .protocolError
          else if masked then
            match readN 4 rest2 with
            | none => .error .incomplete
            | some (key, rest3) =>
              match readN n rest3 with
              | none => .error .incomplete
              | some (body, rest4) =>
                .ok (⟨fin, rsv1, rsv2, rsv3, op, some key, maskBytes key 0 body⟩, rest4)
          else
            match readN n rest2 with
            | none => .error .incomplete
            | some (body, rest3) =>
              .ok (⟨fin, rsv1, rsv2, rsv3, op, none, body⟩, rest3)
  | _ => .error .incomplete

/-- The role for which an encoded frame is destined: masked frames travel
client-to-server, unmasked frames server-to-client. -/
def receiverRole (f : Frame) : Role :=
  if f.masked then .Server else .Client

/-! ### Header-byte parsing lemmas -/

theorem bitAt7_headerByte0 (fin r1 r2 r3 : Bool) (op : Opcode) :
    bitAt (headerByte0 fin r1 r2 r3 op) 7 = fin := by
  cases fin <;> cases r1 <;> cases r2 <;> cases r3 <;> cases op <;> decide

theorem bitAt6_headerByte0 (fin r1 r2 r3 : Bool) (op : Opcode) :
    bitAt (headerByte0 fin r1 r2 r3 op) 6 = r1 := by
  cases fin <;> cases r1 <;> cases r2 <;> cases r3 <;> cases op <;> decide

theorem bitAt5_headerByte0 (fin r1 r2 r3 : Bool) (op : Opcode) :
    bitAt (headerByte0 fin r1 r2 r3 op) 5 = r2 := by
  cases fin <;> cases r1 <;> cases r2 <;> cases r3 <;> cases op <;> decide

theorem bitAt4_headerByte0 (fin r1 r2 r3 : Bool) (op : Opcode) :
    bitAt (headerByte0 fin r1 r2 r3 op) 4 = r3 := by
  cases fin <;> cases r1 <;> cases r2 <;> cases r3 <;> cases op <;> decide

theorem headerByte0_mod16 (fin r1 r2 r3 : Bool) (op : Opcode) :
    headerByte0 fin r1 r2 r3 op % 16 = op.toNat := by
  cases fin <;> cases r1 <;> cases r2 <;> cases r3 <;> cases op <;> decide

theorem ofNat?_toNat (op : Opcode) : Opcode.ofNat? op.toNat = some op := by
  cases op <;> rfl

theorem bitAt7_le127 (l : Nat) (h : l ≤ 127) : bitAt l 7 = false := by
  simp only [bitAt, show (2 : Nat) ^ 7 = 128 from rfl, beq_eq_false_iff_ne, ne_eq]
  omega

theorem bitAt7_add128 (l : Nat) (h : l ≤ 127) : bitAt (128 + l) 7 = true := by
  simp only [bitAt, show (2 : Nat) ^ 7 = 128 from rfl, beq_iff_eq]
  omega

theorem mod128_le127 (l : Nat) (h : l ≤ 127) : l % 128 = l := by omega

theorem add128_mod128 (l : Nat) (h : l ≤ 127) : (128 + l) % 128 = l := by omega

theorem lenBytes_fst_le (n : Nat) : (lenBytes n).1 ≤ 127 := by
  unfold lenBytes
  by_cases h1 : n ≤ 125 <;> by_cases h2 : n < 65536 <;> simp [h1, h2] <;> omega

theorem readN_append (k : Nat) (l1 l2 : List Nat) (h : l1.length = k) :
    readN k (l1 ++ l2) = some (l1, l2) := by
  subst h
  simp [readN, List.take_left, List.drop_left]

theorem decodeLen_lenBytes (n : Nat) (tail : List Nat) (h : n < 2 ^ 64) :
    decodeLen (lenBytes n).1 ((lenBytes n).2 ++ tail) = .ok (n, tail) := by
  by_cases h1 : n ≤ 125
  · simp [lenBytes, h1, decodeLen]
  · by_cases h2 : n < 65536
    · have hr := readN_append 2 (toBytesBE 2 n) tail (by simp)
      have hv := fromBytesBE_toBytesBE 2 n (by norm_num; omega)
      simp [lenBytes, h1, h2, decodeLen, hr, hv]
    · have hr := readN_append 8 (toBytesBE 8 n) tail (by simp)
      have hv := fromBytesBE_toBytesBE 8 n (by norm_num; omega)
      simp [lenBytes, h1, h2, decodeLen, hr, hv]

/-! ### The encode/decode round trip -/

theorem decodeFrame_encodeFrame (f : Frame) (h : f.valid = true) :
    decodeFrame (receiverRole f) (encodeFrame f) = .ok (f, []) := by
  obtain ⟨fin, r1, r2, r3, op, key?, payload⟩ := f
  simp only [Frame.valid, Bool.and_eq_true, decide_eq_true_eq, Bool.or_eq_true,
    Bool.not_eq_true'] at h
  obtain ⟨⟨hlen, hctrl⟩, hkey⟩ := h
  have hl7 : (lenBytes payload.length).1 ≤ 127 := lenBytes_fst_le _
  have hctrlP : ¬(op.isControl = true ∧ (fin = false ∨ 125 < payload.length)) := by
    rintro ⟨hc, hrest⟩
    rcases hctrl with h | h
    · rw [hc] at h; exact Bool.noConfusion h
    · rcases hrest with hf | hn
      · rw [h.1] at hf; exact Bool.noConfusion hf
      · exact absurd hn (Nat.not_lt.mpr h.2)
  have hctrl2 : (op.isControl && (!fin || decide (125 < payload.length))) = false := by
    cases hc : op.isControl with
    | false => simp
    | true =>
      rcases hctrl with h | h
      · rw [hc] at h; exact Bool.noConfusion h
      · simp [h.1, h.2, Nat.not_lt.mpr h.2]
  cases key? with
  | none =>
    have hdl := decodeLen_lenBytes payload.length payload hlen
    have hrp := readN_append payload.length payload [] rfl
    rw [List.append_nil] at hrp
    simp only [encodeFrame, Frame.masked, Option.isSome_none, cond_false,
      Nat.zero_add, receiverRole, decodeFrame]
    rw [headerByte0_mod16, ofNat?_toNat]
    simp [bitAt7_headerByte0, bitAt6_headerByte0, bitAt5_headerByte0,
      bitAt4_headerByte0, bitAt7_le127 _ hl7, mod128_le127 _ hl7,
      hdl, hctrl2, hctrlP, hrp]
  | some key =>
    simp only at hkey
    have hkey4 : key.length = 4 := by simpa using hkey
    have hdl := decodeLen_lenBytes payload.length (key ++ maskBytes key 0 payload) hlen
    have hr4 := readN_append 4 key (maskBytes key 0 payload) hkey4
    have hrp := readN_append payload.length (maskBytes key 0 payload) []
      (maskBytes_length key 0 payload)
    rw [List.append_nil] at hrp
    simp only [encodeFrame, Frame.masked, Option.isSome_some, cond_true,
      receiverRole, decodeFrame]
    rw [headerByte0_mod16, ofNat?_toNat]
    simp [bitAt7_headerByte0, bitAt6_headerByte0, bitAt5_headerByte0,
      bitAt4_headerByte0, bitAt7_add128 _ hl7, add128_mod128 _ hl7,
      hdl, hctrl2, hctrlP, hr4, hrp, maskBytes_maskBytes]

/-! ### Incremental UTF-8 validation

Modelled from the spec (§3 Message invariant and §9 design note, missing
from `src/`): a streaming UTF-8 decoder state carried across frame
boundaries — the bytes of a partial multi-byte sequence are remembered
between calls, so validation tolerates frame boundaries splitting
multi-byte sequences.  The automaton accepts exactly RFC 3629 UTF-8
(continuation ranges, no overlong forms, no surrogates, max U+10FFFF). -/

inductive U8
  | s0
  | s1
  | s2
  | s2e0
  | s2ed
  | s3
  | s3f0
  | s3f4
  | err
  deriving DecidableEq, Repr

/-- One step of the incremental UTF-8 automaton on byte `b`. -/
def u8step (s : U8) (b : Nat) : U8 :=
  match s with
  | .s0 =>
    if b ≤ 0x7F then .s0
    else if 0xC2 ≤ b ∧ b ≤ 0xDF then .s1
    else if b = 0xE0 then .s2e0
    else if b = 0xED then .s2ed
    else if 0xE1 ≤ b ∧ b ≤ 0xEF then .s2
    else if b = 0xF0 then .s3f0
    else if 0xF1 ≤ b ∧ b ≤ 0xF3 then .s3
    else if b = 0xF4 then .s3f4
    else .err
  | .s1 => if 0x80 ≤ b ∧ b ≤ 0xBF then .s0 else .err
  | .s2 => if 0x80 ≤ b ∧ b ≤ 0xBF then .s1 else .err
  | .s2e0 => if 0xA0 ≤ b ∧ b ≤ 0xBF then .s1 else .err
  | .s2ed => if 0x80 ≤ b ∧ b ≤ 0x9F then .s1 else .err
  | .s3 => if 0x80 ≤ b ∧ b ≤ 0xBF then .s2 else .err
  | .s3f0 => if 0x90 ≤ b ∧ b ≤ 0xBF then .s2 else .err
  | .s3f4 => if 0x80 ≤ b ∧ b ≤ 0x8F then .s2 else .err
  | .err => .err

/-- Run the automaton over a byte sequence. -/
def u8run (s : U8) (bs : List Nat) : U8 := bs.foldl u8step s

/-- A byte sequence is valid UTF-8 iff the automaton, started in the
initial state, ends in the initial state (no dangling partial sequence). -/
def validUtf8 (bs : List Nat) : Bool := u8run .s0 bs == .s0

theorem u8run_append (s : U8) (a b : List Nat) :
    u8run s (a ++ b) = u8run (u8run s a) b :=
  List.foldl_append ..

/-! ### Connection state and message reading

Modelled from the spec (§3 connection state, §4.2 Message Reader, §4.5
Close State Machine, §7 error taxonomy — all missing from `src/`). -/

/-- `transport_state: enum{Open, ClosingLocal, ClosingRemote, Closed}`. -/
inductive TState
  | Open
  | ClosingLocal
  | ClosingRemote
  | Closed
  deriving DecidableEq, Repr

/-- Outcome of reading one message: the result surfaced to the caller
(message kind — `true` for Text — and reassembled payload bytes, or an
error), the close code of any Close frame sent to the peer because of the
read, and the transport state afterwards. -/
structure ReadOutcome where
  result : Except WsError (Bool × List Nat)
  sentCloseCode : Option Nat
  transport : TState
  deriving Repr

/-- Modelled from the spec (§4.2, missing from `src/`): pump continuation
frames of one message.  `used` counts the payload bytes delivered so far,
`st` is the incremental UTF-8 state, `acc` the reassembled bytes, `fin`
the final flag of the frame just consumed.  Exceeding a positive read
limit sends a Close frame with code 1009 (`CloseMessageTooBig`) and moves
to `ClosingLocal`; a malformed continuation or an invalid-UTF-8 text
message is a protocol error, closing with code 1002; a read limit ≤ 0 is
unlimited. -/
def pumpLimited (limit : Int) (isText : Bool) (used : Nat) (st : U8)
    (acc : List Nat) (fin : Bool) (rest : List Frame) : ReadOutcome :=
  if fin then
    if isText && !(st == U8.s0) then
      ⟨.error .protocolError, some CloseProtocolError, .ClosingLocal⟩
    else ⟨.ok (isText, acc), none, .Open⟩
  else
    match rest with
    | [] => ⟨.error .incomplete, none, .Open⟩
    | g :: rest2 =>
      if g.opcode ≠ .Continuation then
        ⟨.error .protocolError, some CloseProtocolError, .ClosingLocal⟩
      else if 0 < limit ∧ limit < ((used + g.payload.length : Nat) : Int) then
        ⟨.error .limitExceeded, some CloseMessageTooBig, .ClosingLocal⟩
      else
        pumpLimited limit isText (used + g.payload.length) (u8run st g.payload)
          (acc ++ g.payload) g.fin rest2

/-- Modelled from the spec (§4.2 `next()`, missing from `src/`): read one
data message from a sequence of already-decoded frames, enforcing the read
limit and validating Text payloads incrementally across frame
boundaries. -/
def readMessage (limit : Int) (frames : List Frame) : ReadOutcome :=
  match frames with
  | [] => ⟨.error .incomplete, none, .Open⟩
  | f :: rest =>
    if f.opcode = .Text ∨ f.opcode = .Binary then
      if 0 < limit ∧ limit < ((f.payload.length : Nat) : Int) then
        ⟨.error .limitExceeded, some CloseMessageTooBig, .ClosingLocal⟩
      else
        pumpLimited limit (f.opcode == .Text) f.payload.length
          (u8run .s0 f.payload) f.payload f.fin rest
    else ⟨.error .protocolError, some CloseProtocolError, .ClosingLocal⟩

/-- A frame of a fragmentation run, unmasked, with no rsv flags. -/
def mkFrame (op : Opcode) (fin : Bool) (p : List Nat) : Frame :=
  ⟨fin, false, false, false, op, none, p⟩

/-- The frames of one message whose successive payloads are `chunks`: the
first frame carries the data opcode `op`, the rest are Continuation
frames, and only the last has `fin` set. -/
def msgFrames (op : Opcode) (chunks : List (List Nat)) : List Frame :=
  match chunks with
  | [] => []
  | [p] => [mkFrame op true p]
  | p :: q :: rest => mkFrame op false p :: msgFrames .Continuation (q :: rest)

/-- Split `msg` at the successive positions `cuts` (each cut is an offset
into the remaining suffix), producing `cuts.length + 1` chunks whose
concatenation is `msg`. -/
def splitChunks (msg : List Nat) : List Nat → List (List Nat)
  | [] => [msg]
  | c :: cs => msg.take c :: splitChunks (msg.drop c) cs

/-- Modelled from the spec (§4.3 default read limit, from the
`UpgradeOptions.ReadLimit` documentation in `src/websocket.go` lines
92-98): a zero `ReadLimit` means a default limit of 32K bytes and a
negative `ReadLimit` disables limiting. -/
def effectiveReadLimit (readLimit : Int) : Int :=
  if readLimit = 0 then 32768 else readLimit

/-- `role`, `transport_state`, whether a Reader is outstanding and not yet
drained, and a peer close code/reason not yet surfaced to the application
(spec §3 and §4.4). -/
structure ConnState where
  role : Role
  transport : TState
  readerBusy : Bool
  pendingPeerClose : Option (Nat × List Nat)
  deriving DecidableEq, Repr

/-- Modelled from the spec (§4.4 Close received, missing from `src/`):
decode a Close frame's payload — an absent payload means code
`CloseNoStatusReceived` (1005), otherwise the first two bytes are the
big-endian close code and the remainder a UTF-8 reason (invalid UTF-8 or a
one-byte payload is a protocol error). -/
def parseClosePayload (p : List Nat) : Except WsError (Nat × List Nat) :=
  match p with
  | [] => .ok (CloseNoStatusReceived, [])
  | [_] => .error .protocolError
  | c1 :: c2 :: reason =>
    if validUtf8 reason then .ok (c1 * 256 + c2, reason) else .error .protocolError

/-- Modelled from the spec (§4.4/§4.5, missing from `src/`): handle a
received Close frame.  In `Open`, record the peer's code/reason for the
next Reader call, echo a Close frame with the same code and transition to
`Closed`; in `ClosingLocal` this completes the closing handshake.  A
malformed close payload is a protocol error (abnormal closure, code
1002). -/
def onCloseFrame (c : ConnState) (payload : List Nat) : ConnState × Option Nat :=
  match parseClosePayload payload with
  | .error _ => ({c with transport := .ClosingLocal}, some CloseProtocolError)
  | .ok (code, reason) =>
    match c.transport with
    | .Open =>
      ({c with transport := .Closed, pendingPeerClose := some (code, reason)}, some code)
    | .ClosingLocal =>
      ({c with transport := .Closed, pendingPeerClose := some (code, reason)}, none)
    | _ => (c, none)

/-- Modelled from the spec (§4.4/§7, missing from `src/`): feed the bytes
of one incoming frame to the connection.  A protocol error (including a
bad masking direction) triggers an abnormal closure with code
`CloseProtocolError` (1002) and surfaces no frame; a Close frame is
dispatched to the control-frame handler; any other decoded frame is
surfaced. -/
def onIncomingBytes (c : ConnState) (bytes : List Nat) :
    ConnState × Option Nat × Except WsError (Option Frame) :=
  match decodeFrame c.role bytes with
  | .error .protocolError =>
    ({c with transport := .ClosingLocal}, some CloseProtocolError, .error .protocolError)
  | .error e => (c, none, .error e)
  | .ok (f, _) =>
    if f.opcode = .Close then
      let r := onCloseFrame c f.payload
      (r.1, r.2, .ok none)
    else (c, none, .ok (some f))

/-- Modelled from the spec (§4.2/§4.7 and the `Conn.Reader` documentation
in `src/websocket.go` lines 139-146, body missing from `src/`): request a
Reader.  A second Reader while one is outstanding is a local
concurrency-misuse error that changes nothing and sends nothing; a pending
peer close is surfaced exactly once as a `peerClose` error; on a closed
connection a generic closed-connection error is returned; otherwise the
Reader is issued. -/
def connReader (c : ConnState) : ConnState × Except WsError Unit :=
  if c.readerBusy then (c, .error .concurrencyMisuse)
  else
    match c.pendingPeerClose with
    | some (code, reason) =>
      ({c with pendingPeerClose := none}, .error (.peerClose code reason))
    | none =>
      if c.transport = .Closed then (c, .error .connClosed)
      else ({c with readerBusy := true}, .ok ())

/-- Modelled from the spec (§3 lifecycle, missing from `src/`): draining
the outstanding Reader to end-of-message releases it. -/
def readerDrain (c : ConnState) : ConnState := {c with readerBusy := false}

/-- Modelled from the spec (§4.5 `CloseWrite`, `Conn.CloseWrite` in
`src/websocket.go` lines 127-133, body missing from `src/`): initiate the
closing handshake.  From `Open`, send a Close frame with the given code
and reason and move to `ClosingLocal`; in any other state the call is a
no-op and sends nothing. -/
def closeWrite (c : ConnState) (code : Nat) (reason : List Nat) :
    ConnState × Option (Nat × List Nat) :=
  if c.transport = .Open then
    ({c with transport := .ClosingLocal}, some (code, reason))
  else (c, none)

/-- Modelled from the spec (§4.5, missing from `src/`): receiving the
peer's Close reply while in `ClosingLocal` completes the handshake and
closes the transport. -/
def onPeerCloseReply : TState → TState
  | .ClosingLocal => .Closed
  | s => s

/-- Modelled from the spec (§4.5, missing from `src/`): if no peer Close
arrives before the timeout while in `ClosingLocal`, the transport is
forcibly torn down. -/
def onCloseTimeout : TState → TState
  | .ClosingLocal => .Closed
  | s => s

/-- Modelled from the intent of `CloseError.Error` in `src/websocket.go`
lines 55-57 (whose body references the nonexistent field `e.Text` for the
struct's `Reason` field): render a close error with the format
`websocket close: code = %v (%d), message = %s`, the code filling both
numeric verbs and the reason the string verb. -/
def closeErrorMessage (code : Nat) (reason : String) : String :=
  "websocket close: code = " ++ toString code ++ " (" ++ toString code ++
    "), message = " ++ reason

/-! ### Message-reassembly lemmas -/

theorem splitChunks_flatten (msg : List Nat) (cuts : List Nat) :
    (splitChunks msg cuts).flatten = msg := by
  induction cuts generalizing msg with
  | nil => simp [splitChunks]
  | cons c cs ih => simp [splitChunks, ih]

theorem splitChunks_ne_nil (msg : List Nat) (cuts : List Nat) :
    splitChunks msg cuts ≠ [] := by
  cases cuts <;> simp [splitChunks]

/-- Draining a whole message through `pumpLimited` with a non-positive
(unlimited) read limit reassembles the concatenation of the remaining
chunks and applies the incremental UTF-8 check at the end. -/
theorem pumpLimited_msg (limit : Int) (hl : limit ≤ 0) (chunks : List (List Nat))
    (hne : chunks ≠ []) (isText : Bool) (used : Nat) (st : U8) (acc : List Nat) :
    pumpLimited limit isText used st acc false (msgFrames .Continuation chunks) =
      if isText && !(u8run st chunks.flatten == U8.s0) then
        ⟨.error .protocolError, some CloseProtocolError, .ClosingLocal⟩
      else ⟨.ok (isText, acc ++ chunks.flatten), none, .Open⟩ := by
  induction chunks generalizing used st acc with
  | nil => cases hne rfl
  | cons p rest ih =>
    have hno : ¬(0 < limit ∧ limit < ((used + p.length : Nat) : Int)) := by
      rintro ⟨h1, _⟩; omega
    cases rest with
    | nil =>
      rw [msgFrames, pumpLimited]
      rw [if_neg (by simp), if_neg (by simp [mkFrame])]
      simp only [mkFrame]
      rw [if_neg hno, pumpLimited]
      simp
    | cons q rest2 =>
      rw [msgFrames, pumpLimited]
      rw [if_neg (by simp), if_neg (by simp [mkFrame])]
      simp only [mkFrame]
      rw [if_neg hno]
      rw [ih (by simp)]
      rw [show (q :: rest2).flatten = q ++ rest2.flatten from rfl,
        show (p :: q :: rest2).flatten = p ++ (q ++ rest2.flatten) from rfl,
        ← u8run_append, List.append_assoc]

theorem readMessage_msgFrames (limit : Int) (hl : limit ≤ 0) (op : Opcode)
    (hop : op = .Text ∨ op = .Binary) (chunks : List (List Nat)) (hne : chunks ≠ []) :
    readMessage limit (msgFrames op chunks) =
      if (op == .Text) && !(u8run .s0 chunks.flatten == U8.s0) then
        ⟨.error .protocolError, some CloseProtocolError, .ClosingLocal⟩
      else ⟨.ok (op == .Text, chunks.flatten), none, .Open⟩ := by
  have hno : ∀ n : Nat, ¬(0 < limit ∧ limit < (n : Int)) := by
    rintro n ⟨h1, _⟩; omega
  cases chunks with
  | nil => cases hne rfl
  | cons p rest =>
    cases rest with
    | nil =>
      rw [msgFrames, readMessage]
      rw [if_pos (by simpa [mkFrame] using hop), if_neg (hno _)]
      rw [pumpLimited]
      simp [mkFrame]
    | cons q rest2 =>
      rw [msgFrames, readMessage]
      rw [if_pos (by simpa [mkFrame] using hop), if_neg (hno _)]
      show pumpLimited limit ((mkFrame op false p).opcode == .Text)
          (mkFrame op false p).payload.length
          (u8run .s0 (mkFrame op false p).payload) (mkFrame op false p).payload
          false (msgFrames .Continuation (q :: rest2)) = _
      rw [pumpLimited_msg limit hl (q :: rest2) (by simp)]
      simp only [mkFrame]
      rw [show (q :: rest2).flatten = q ++ rest2.flatten from rfl,
        show (p :: q :: rest2).flatten = p ++ (q ++ rest2.flatten) from rfl,
        ← u8run_append]

/-! ### Read-limit lemmas -/

/-- Once the cumulative payload of a message is bound to exceed a positive
read limit, `pumpLimited` reports `limitExceeded`, sends close code 1009
and moves to `ClosingLocal`. -/
theorem pumpLimited_breach (chunks : List (List Nat)) (limit : Int) (isText : Bool)
    (used : Nat) (st : U8) (acc : List Nat)
    (hpos : 0 < limit) (hused : (used : Int) ≤ limit)
    (hbr : limit < (used : Int) + ((chunks.map List.length).sum : Int)) :
    pumpLimited limit isText used st acc false (msgFrames .Continuation chunks) =
      ⟨.error .limitExceeded, some CloseMessageTooBig, .ClosingLocal⟩ := by
  induction chunks generalizing used st acc with
  | nil => exfalso; simp at hbr; omega
  | cons p rest ih =>
    rw [List.map_cons, List.sum_cons] at hbr
    push_cast at hbr
    cases rest with
    | nil =>
      rw [msgFrames, pumpLimited]
      rw [if_neg (by simp), if_neg (by simp [mkFrame])]
      simp only [mkFrame]
      rw [if_pos ⟨hpos, by push_cast; simp at hbr; omega⟩]
    | cons q rest2 =>
      rw [msgFrames, pumpLimited]
      rw [if_neg (by simp), if_neg (by simp [mkFrame])]
      simp only [mkFrame]
      by_cases hc : limit < ((used + p.length : Nat) : Int)
      · rw [if_pos ⟨hpos, hc⟩]
      · rw [if_neg (by rintro ⟨_, h⟩; exact hc h)]
        push_cast at hc
        exact ih (used + p.length) (u8run st p) (acc ++ p)
          (by push_cast; omega) (by push_cast; omega)

/-- Reading a wellformed message whose total payload exceeds a positive
read limit yields the limit-breach outcome. -/
theorem readMessage_breach (op : Opcode) (hop : op = .Text ∨ op = .Binary)
    (chunks : List (List Nat)) (hne : chunks ≠ []) (limit : Int) (hpos : 0 < limit)
    (hbr : limit < ((chunks.map List.length).sum : Int)) :
    readMessage limit (msgFrames op chunks) =
      ⟨.error .limitExceeded, some CloseMessageTooBig, .ClosingLocal⟩ := by
  cases chunks with
  | nil => cases hne rfl
  | cons p rest =>
    rw [List.map_cons, List.sum_cons] at hbr
    push_cast at hbr
    cases rest with
    | nil =>
      rw [msgFrames, readMessage]
      rw [if_pos (by simpa [mkFrame] using hop)]
      simp only [mkFrame]
      rw [if_pos ⟨hpos, by simp at hbr; omega⟩]
    | cons q rest2 =>
      rw [msgFrames, readMessage]
      rw [if_pos (by simpa [mkFrame] using hop)]
      simp only [mkFrame]
      by_cases hc : limit < ((p.length : Nat) : Int)
      · rw [if_pos ⟨hpos, hc⟩]
      · rw [if_neg (by rintro ⟨_, h⟩; exact hc h)]
        exact pumpLimited_breach (q :: rest2) limit _ p.length _ _ hpos
          (by omega) (by push_cast; omega)

/-- With a non-positive (unlimited) read limit, `pumpLimited` never
reports `limitExceeded` and never sends close code 1009. -/
theorem pumpLimited_unlimited (limit : Int) (hl : limit ≤ 0) (rest : List Frame) :
    ∀ (isText : Bool) (used : Nat) (st : U8) (acc : List Nat) (fin : Bool),
      (pumpLimited limit isText used st acc fin rest).result ≠ .error .limitExceeded ∧
      (pumpLimited limit isText used st acc fin rest).sentCloseCode ≠ some CloseMessageTooBig := by
  induction rest with
  | nil =>
    intro isText used st acc fin
    rw [pumpLimited]
    cases fin with
    | true =>
      cases h : (isText && !(st == U8.s0)) <;>
        simp [h, CloseProtocolError, CloseMessageTooBig]
    | false => simp
  | cons g rest2 ih =>
    intro isText used st acc fin
    rw [pumpLimited]
    cases fin with
    | true =>
      cases h : (isText && !(st == U8.s0)) <;>
        simp [h, CloseProtocolError, CloseMessageTooBig]
    | false =>
      simp only [Bool.false_eq_true, if_false]
      by_cases hg : g.opcode ≠ .Continuation
      · rw [if_pos hg]
        simp [CloseProtocolError, CloseMessageTooBig]
      · rw [if_neg hg, if_neg (by rintro ⟨h1, _⟩; omega)]
        exact ih isText _ _ _ g.fin

/-- With a non-positive (unlimited) read limit, `readMessage` never
reports `limitExceeded` and never sends close code 1009. -/
theorem readMessage_unlimited (limit : Int) (hl : limit ≤ 0) (frames : List Frame) :
    (readMessage limit frames).result ≠ .error .limitExceeded ∧
    (readMessage limit frames).sentCloseCode ≠ some CloseMessageTooBig := by
  cases frames with
  | nil => simp [readMessage]
  | cons f rest =>
    rw [readMessage]
    by_cases h1 : f.opcode = .Text ∨ f.opcode = .Binary
    · rw [if_pos h1, if_neg (by rintro ⟨hp, _⟩; omega)]
      exact pumpLimited_unlimited limit hl rest _ _ _ _ f.fin
    · rw [if_neg h1]
      simp [CloseProtocolError, CloseMessageTooBig]

theorem sum_len_dropLast_le (l : List (List Nat)) :
    (l.dropLast.map List.length).sum ≤ (l.map List.length).sum := by
  induction l with
  | nil => simp
  | cons a t ih =>
    cases t with
    | nil => simp
    | cons b t2 =>
      simp only [List.dropLast, List.map_cons, List.sum_cons]
      exact Nat.add_le_add_left ih _

/-- A server rejects an unmasked frame during header decoding, before any
payload is read. -/
theorem decodeFrame_unmasked_server (f : Frame) (hm : f.maskingKey = none) :
    decodeFrame .Server (encodeFrame f) = .error .protocolError := by
  obtain ⟨fin, r1, r2, r3, op, key?, payload⟩ := f
  simp only at hm
  subst hm
  have hl7 := lenBytes_fst_le payload.length
  simp only [encodeFrame, Frame.masked, Option.isSome_none, cond_false,
    Nat.zero_add, decodeFrame]
  rw [headerByte0_mod16, ofNat?_toNat]
  simp [bitAt7_le127 _ hl7]

/-! ### Claim theorems -/

/-- **C1**: for every valid frame, for every opcode and for every boundary
payload length (0, 125, 126, 65535 and 65536 bytes), decoding the bytes
produced by encoding the frame yields the original frame: all header
fields (fin, rsv, opcode, masked, payload length, masking key) and the
payload bytes round-trip unchanged, with no bytes left over. -/
theorem frame_roundtrip_boundary (f : Frame) (hv : f.valid = true)
    (_hb : f.payload.length = 0 ∨ f.payload.length = 125 ∨ f.payload.length = 126 ∨
      f.payload.length = 65535 ∨ f.payload.length = 65536) :
    decodeFrame (receiverRole f) (encodeFrame f) = .ok (f, []) :=
  decodeFrame_encodeFrame f hv

theorem frame_roundtrip_boundary_witness :
    decodeFrame (receiverRole ⟨true, false, false, false, .Text, none, []⟩)
        (encodeFrame ⟨true, false, false, false, .Text, none, []⟩) =
      .ok (⟨true, false, false, false, .Text, none, []⟩, []) :=
  frame_roundtrip_boundary ⟨true, false, false, false, .Text, none, []⟩
    (by decide) (Or.inl (by decide))

/-- **C2**: when the connection role is Server, every incoming frame whose
masked flag is false is rejected by frame decoding with a protocol error —
the frame's payload is never surfaced to the application — and the
connection performs an abnormal close that sends close code
`CloseProtocolError` = 1002 to the peer. -/
theorem server_unmasked_rejected (f : Frame) (c : ConnState)
    (hm : f.maskingKey = none) (hrole : c.role = .Server) :
    decodeFrame .Server (encodeFrame f) = .error .protocolError ∧
    onIncomingBytes c (encodeFrame f) =
      ({c with transport := .ClosingLocal}, some CloseProtocolError,
        .error .protocolError) ∧
    CloseProtocolError = 1002 := by
  have hd := decodeFrame_unmasked_server f hm
  refine ⟨hd, ?_, rfl⟩
  rw [onIncomingBytes, hrole, hd]

theorem server_unmasked_rejected_witness :
    decodeFrame .Server (encodeFrame ⟨true, false, false, false, .Text, none, [104]⟩) =
      .error .protocolError ∧
    onIncomingBytes ⟨.Server, .Open, false, none⟩
        (encodeFrame ⟨true, false, false, false, .Text, none, [104]⟩) =
      (⟨.Server, .ClosingLocal, false, none⟩, some CloseProtocolError,
        .error .protocolError) ∧
    CloseProtocolError = 1002 :=
  server_unmasked_rejected ⟨true, false, false, false, .Text, none, [104]⟩
    ⟨.Server, .Open, false, none⟩ rfl rfl

/-- **C3**: a Text message split into any number of frames at arbitrary
byte positions — including positions inside a multi-byte UTF-8 sequence —
reassembles into exactly the original byte string when the original is
valid UTF-8, and is rejected as a protocol error whenever the concatenated
payload is not valid UTF-8 (the incremental validator carries its state
across frame boundaries, so earlier frames being valid UTF-8 prefixes does
not prevent rejection caused by a byte in the final frame). -/
theorem text_message_reassembly (msg : List Nat) (cuts : List Nat) :
    readMessage (-1) (msgFrames .Text (splitChunks msg cuts)) =
      if validUtf8 msg then ⟨.ok (true, msg), none, .Open⟩
      else ⟨.error .protocolError, some CloseProtocolError, .ClosingLocal⟩ := by
  rw [readMessage_msgFrames (-1) (by norm_num) .Text (Or.inl rfl) _
    (splitChunks_ne_nil msg cuts)]
  rw [splitChunks_flatten]
  cases h : u8run .s0 msg == U8.s0 <;> simp [validUtf8, h]

/-- **C4**: for every message whose cumulative payload bytes delivered
before the fin frame exceed the active (positive) read limit, the read
reports the distinct `limitExceeded` error, the connection sends a Close
frame with code `CloseMessageTooBig` = 1009 (and never 1000), and the
transport transitions to `ClosingLocal` rather than `Closed` — it then
reaches `Closed` on the peer's close reply or on the close timeout. -/
theorem read_limit_breach (op : Opcode) (chunks : List (List Nat)) (limit : Int)
    (hop : op = .Text ∨ op = .Binary) (hne : chunks ≠ []) (hpos : 0 < limit)
    (hbr : limit < ((chunks.dropLast.map List.length).sum : Int)) :
    readMessage limit (msgFrames op chunks) =
      ⟨.error .limitExceeded, some CloseMessageTooBig, .ClosingLocal⟩ ∧
    CloseMessageTooBig = 1009 ∧
    CloseMessageTooBig ≠ CloseNormalClosure ∧
    TState.ClosingLocal ≠ TState.Closed ∧
    onPeerCloseReply .ClosingLocal = .Closed ∧
    onCloseTimeout .ClosingLocal = .Closed := by
  refine ⟨?_, rfl, by decide, by decide, rfl, rfl⟩
  apply readMessage_breach op hop chunks hne limit hpos
  have h := sum_len_dropLast_le chunks
  omega

theorem read_limit_breach_witness :
    readMessage 3 (msgFrames .Binary [[1, 2, 3, 4], [5]]) =
      ⟨.error .limitExceeded, some CloseMessageTooBig, .ClosingLocal⟩ ∧
    CloseMessageTooBig = 1009 ∧
    CloseMessageTooBig ≠ CloseNormalClosure ∧
    TState.ClosingLocal ≠ TState.Closed ∧
    onPeerCloseReply .ClosingLocal = .Closed ∧
    onCloseTimeout .ClosingLocal = .Closed :=
  read_limit_breach .Binary [[1, 2, 3, 4], [5]] 3 (Or.inr rfl)
    (by decide) (by decide) (by decide)

/-- **C5** counterexample: with the configured `ReadLimit` equal to zero
(which is ≤ 0), reads are not unlimited — the source's documented default
of a 32K limit applies, so a 32769-byte message is rejected with
`limitExceeded` and a Close frame with code 1009 is sent, refuting the
claim that every `readLimit ≤ 0` disables limiting. -/
theorem readLimit_zero_not_unlimited :
    (0 : Int) ≤ 0 ∧
    effectiveReadLimit 0 = 32768 ∧
    (readMessage (effectiveReadLimit 0)
        (msgFrames .Binary [List.replicate 32769 0])).result =
      .error .limitExceeded ∧
    (readMessage (effectiveReadLimit 0)
        (msgFrames .Binary [List.replicate 32769 0])).sentCloseCode =
      some CloseMessageTooBig := by
  have he : effectiveReadLimit 0 = 32768 := rfl
  have hr : readMessage (effectiveReadLimit 0)
      (msgFrames .Binary [List.replicate 32769 0]) =
      ⟨.error .limitExceeded, some CloseMessageTooBig, .ClosingLocal⟩ := by
    rw [he]
    rw [show msgFrames .Binary [List.replicate 32769 0] =
      [mkFrame .Binary true (List.replicate 32769 0)] from rfl]
    rw [readMessage]
    have h1 : (mkFrame .Binary true (List.replicate 32769 0)).opcode = .Text ∨
        (mkFrame .Binary true (List.replicate 32769 0)).opcode = .Binary := Or.inr rfl
    have h2 : (0 : Int) < 32768 ∧ (32768 : Int) <
        ((mkFrame .Binary true (List.replicate 32769 0)).payload.length : Int) := by
      refine ⟨by norm_num, ?_⟩
      show (32768 : Int) < ((List.replicate 32769 (0 : Nat)).length : Int)
      rw [List.length_replicate]
      norm_num
    rw [if_pos h1, if_pos h2]
  exact ⟨le_refl 0, he, by rw [hr], by rw [hr]⟩

/-- **C5** amended: for every configured `readLimit` value strictly less
than zero, reads on the connection are unlimited — no message is ever
rejected with `limitExceeded` and no Close frame with code 1009 is ever
sent because of message size; a `readLimit` of exactly zero instead
selects the documented default limit of 32K bytes. -/
theorem negative_readLimit_unlimited (readLimit : Int) (h : readLimit < 0)
    (frames : List Frame) :
    (readMessage (effectiveReadLimit readLimit) frames).result ≠
      .error .limitExceeded ∧
    (readMessage (effectiveReadLimit readLimit) frames).sentCloseCode ≠
      some CloseMessageTooBig := by
  have he : effectiveReadLimit readLimit = readLimit := by
    rw [effectiveReadLimit, if_neg (by omega)]
  rw [he]
  exact readMessage_unlimited readLimit (le_of_lt h) frames

theorem negative_readLimit_unlimited_witness :
    (readMessage (effectiveReadLimit (-1)) []).result ≠ .error .limitExceeded ∧
    (readMessage (effectiveReadLimit (-1)) []).sentCloseCode ≠
      some CloseMessageTooBig :=
  negative_readLimit_unlimited (-1) (by decide) []

/-- **C6**: while a Reader is outstanding and not yet drained, a further
`Reader` request fails immediately with the local `concurrencyMisuse`
error — the connection state (in particular the transport) is unchanged
and nothing is sent to the peer — and once the first Reader is drained to
end-of-message a subsequent `Reader` request succeeds. -/
theorem second_reader_fails (c : ConnState) (hbusy : c.readerBusy = true)
    (hpend : c.pendingPeerClose = none) (hnc : c.transport ≠ .Closed) :
    connReader c = (c, .error .concurrencyMisuse) ∧
    (connReader c).1.transport = c.transport ∧
    (connReader (readerDrain c)).2 = .ok () := by
  have h1 : connReader c = (c, .error .concurrencyMisuse) := by
    rw [connReader, if_pos hbusy]
  refine ⟨h1, by rw [h1], ?_⟩
  rw [connReader, if_neg (by simp [readerDrain])]
  simp [readerDrain, hpend, hnc]

theorem second_reader_fails_witness :
    connReader ⟨.Server, .Open, true, none⟩ =
      (⟨.Server, .Open, true, none⟩, .error .concurrencyMisuse) ∧
    (connReader ⟨.Server, .Open, true, none⟩).1.transport =
      (⟨.Server, .Open, true, none⟩ : ConnState).transport ∧
    (connReader (readerDrain ⟨.Server, .Open, true, none⟩)).2 = .ok () :=
  second_reader_fails ⟨.Server, .Open, true, none⟩ rfl rfl (by decide)

/-- **C7**: `CloseWrite` is idempotent — whatever the connection state, a
second `CloseWrite` call after a first one sends no Close frame and
leaves the connection state unchanged. -/
theorem closeWrite_idempotent (c : ConnState) (code code2 : Nat)
    (reason reason2 : List Nat) :
    closeWrite (closeWrite c code reason).1 code2 reason2 =
      ((closeWrite c code reason).1, none) := by
  by_cases h : c.transport = .Open
  · simp [closeWrite, h]
  · simp [closeWrite, h]

/-- **C8**: on receipt of a peer Close frame carrying code 1000 and reason
"bye", the connection records the peer's code and reason and the next
`Reader` call surfaces them exactly once as a `peerClose` error, every
later `Reader` call returns the generic closed-connection error, an
absent close payload decodes to `CloseNoStatusReceived` = 1005, and the
intended rendering of the close error (the source's `CloseError.Error`
formats the nonexistent field `e.Text` where the struct's field is
`Reason`) contains both the code and the reason. -/
theorem peer_close_surfaced_once :
    onCloseFrame ⟨.Server, .Open, false, none⟩ [3, 232, 98, 121, 101] =
      (⟨.Server, .Closed, false, some (1000, [98, 121, 101])⟩, some 1000) ∧
    connReader ⟨.Server, .Closed, false, some (1000, [98, 121, 101])⟩ =
      (⟨.Server, .Closed, false, none⟩, .error (.peerClose 1000 [98, 121, 101])) ∧
    connReader ⟨.Server, .Closed, false, none⟩ =
      (⟨.Server, .Closed, false, none⟩, .error .connClosed) ∧
    parseClosePayload [] = .ok (CloseNoStatusReceived, []) ∧
    CloseNoStatusReceived = 1005 ∧
    closeErrorMessage 1000 "bye" =
      "websocket close: code = 1000 (1000), message = bye" :=
  ⟨rfl, rfl, rfl, rfl, rfl, rfl⟩

/-- **C9**: every named close-code constant equals the numeric value RFC
6455 §11.7 assigns to its name, and every defined constant lies in the
range 1000–1015. -/
theorem closeCodes_rfc_values :
    CloseNormalClosure = 1000 ∧ CloseGoingAway = 1001 ∧
    CloseProtocolError = 1002 ∧ CloseUnsupportedData = 1003 ∧
    CloseNoStatusReceived = 1005 ∧ CloseAbnormalClosure = 1006 ∧
    CloseInvalidFramePayloadData = 1007 ∧ ClosePolicyViolation = 1008 ∧
    CloseMessageTooBig = 1009 ∧ CloseMandatoryExtension = 1010 ∧
    CloseInternalServerErr = 1011 ∧ CloseServiceRestart = 1012 ∧
    CloseTryAgainLater = 1013 ∧ CloseTLSHandshake = 1015 ∧
    closeCodes.all (fun c => decide (1000 ≤ c) && decide (c ≤ 1015)) = true := by
  decide

/-- **C10**: the set of named CloseCode constants is exactly the fourteen
values 1000–1003, 1005–1013 and 1015 — fourteen constants, with no
constant defined for 1004 or 1014. -/
theorem closeCodes_exact_set :
    closeCodes = [1000, 1001, 1002, 1003, 1005, 1006, 1007, 1008, 1009,
      1010, 1011, 1012, 1013, 1015] ∧
    closeCodes.length = 14 ∧
    closeCodes.contains 1004 = false ∧
    closeCodes.contains 1014 = false := by
  decide

end WS
